import Mathlib

/-!
Shallow embedding of `src/akshare_etf_fetcher.py` (an ETF screening and
scoring pipeline) and proofs about it.

Modelling conventions:
* pandas/Python floats are modelled by exact arithmetic: the dataframe
  columns are rationals, and the Sharpe ratio (which involves square
  roots) lives in `ℝ`.
* Exceptions are modelled by `Except String`: the external provider calls
  `ak.fund_etf_category_sina()` and `ak.fund_etf_hist_sina(...)` are
  parameters of type `Except String (List Row)` and
  `String → Except String (List PriceBar)` respectively, an `.error`
  value standing for a raised exception.
* `row["代码"].strip()` and `row["名称"].strip()` may raise when the cell
  is not a string; each is modelled as an `Except String String` field of
  the row, holding the outcome of that expression.  The numeric columns
  (最新价, 涨跌幅(%), 成交额(万元)) must already compare numerically for
  the earlier filter/sort lines to have executed, so the `float(...)`
  conversions of those cells are total and the fields are plain `ℚ`.
* `pandas.DataFrame.sort_values(by=..., ascending=False)` computes
  `nargsort`: it reverses the column, argsorts ascending with the chosen
  kind and reverses the resulting indexer, which is a stable descending
  sort exactly when the kind is stable.  The code uses the default
  `kind="quicksort"` (numpy introsort), documented by numpy and pandas as
  NOT stable, so the relative order of rows with equal 涨跌幅(%) is
  implementation-defined.  The embedding `rankCandidates` fixes one
  admissible outcome (the stable `List.mergeSort` refinement); the full
  extent of what the line guarantees about order, for every kind, is
  captured separately by `isDescendingSortOf`, and the theorems below
  that go through `rankCandidates` do not depend on the tie order.
* `round(x, 4)` is embedded as rounding `x * 10 ^ 4` to the nearest
  integer; the Python tie-breaking rule (ties to even) differs from
  Mathlib `round` only on exact half-way values, below the granularity of
  every statement proved here.
-/

namespace EtfFetcher

/-- One historical bar as returned by `ak.fund_etf_hist_sina`; the code
only ever reads the `close` column and the row count. -/
structure PriceBar where
  date : String
  close : ℚ

/-- One row of the `ak.fund_etf_category_sina()` universe snapshot.
`code` and `rawName` are the outcomes of `row["代码"].strip()` and
`row["名称"].strip()` (which raise when the cell is not a string). -/
structure Row where
  code : Except String String
  rawName : Except String String
  lastPrice : ℚ
  changePercent : ℚ
  turnoverAmount : ℚ

/-- One element of `result_data`: the dict
`{symbol, name, price, change, turnover, sharpe}` built in the loop. -/
structure RiskScore where
  symbol : String
  rsName : String
  price : ℚ
  change : ℚ
  turnover : ℚ
  sharpe : ℝ

/-- The returned dict of `fetch_etf_data`: Python dicts have absent keys,
so each form's unused fields are `none`. -/
structure ResultEnvelope where
  data : Option (List RiskScore)
  error : Option String
  timestamp : String
  count : Option Nat

/-- The sequence `history_data["close"].pct_change().dropna()`:
`r_i = close_i / close_(i-1) - 1`, one value per consecutive pair, the
leading NaN dropped. -/
def dailyReturns (closes : List ℚ) : List ℚ :=
  List.zipWith (fun prev cur => cur / prev - 1) closes closes.tail

/-- Mean of a list of rationals (`Series.mean`). -/
def listMean (l : List ℚ) : ℚ := l.sum / l.length

/-- Sample variance with `ddof = 1`, the square of `Series.std()`. -/
def sampleVar (l : List ℚ) : ℚ :=
  (l.map (fun r => (r - listMean l) ^ 2)).sum / ((l.length : ℚ) - 1)

/-- The value of `returns.std()`: square root of the sample variance. -/
noncomputable def sampleStd (l : List ℚ) : ℝ := Real.sqrt (sampleVar l)

/-- The value of `(1 + returns).prod() - 1`. -/
def cumReturn (l : List ℚ) : ℚ := (l.map (fun r => 1 + r)).prod - 1

/-- The value of `returns.std() * (252 ** 0.5)`: annualized volatility. -/
noncomputable def annualVol (l : List ℚ) : ℝ := sampleStd l * Real.sqrt 252

/-- The function `calculate_sharpe_ratio(history_data)` of
`src/akshare_etf_fetcher.py`: daily returns from the close column, `0.0`
when fewer than 10 returns, otherwise cumulative return over annualized
volatility with a zero-volatility guard. -/
noncomputable def calculate_sharpe_ratio (history_data : List PriceBar) : ℝ :=
  let returns := dailyReturns (history_data.map PriceBar.close)
  if returns.length < 10 then 0.0
  else
    let cum_return := cumReturn returns
    let volatility := annualVol returns
    if volatility ≠ 0 then (cum_return : ℝ) / volatility else 0.0

/-- The value of `round(x, 4)`: round to 4 fractional decimal digits. -/
noncomputable def round4 (x : ℝ) : ℝ := (round (x * 10 ^ 4) : ℤ) / 10 ^ 4

/-- The mask filter
`etf_basic[(etf_basic["成交额(万元)"] > 1000) & (etf_basic["最新价"] > 0)]`. -/
def filterUniverse (etf_basic : List Row) : List Row :=
  etf_basic.filter (fun r => decide (1000 < r.turnoverAmount) && decide (0 < r.lastPrice))

/-- Comparison used by the descending sort on 涨跌幅(%): row `a` may come
before row `b` when `b.changePercent ≤ a.changePercent`. -/
def rankLE (a b : Row) : Bool := decide (b.changePercent ≤ a.changePercent)

/-- The line `valid_etfs.sort_values(by="涨跌幅(%)", ascending=False).head(50)`:
descending sort on `changePercent`, then the first 50 rows.  The code's
default sort kind (numpy quicksort) leaves the relative order of rows
with equal `changePercent` unspecified; this embedding fixes the stable
refinement (`List.mergeSort`), one admissible outcome.  What the sort
line guarantees about order under every kind is `isDescendingSortOf`. -/
def rankCandidates (valid_etfs : List Row) : List Row :=
  (valid_etfs.mergeSort rankLE).take 50

/-- What `valid_etfs.sort_values(by="涨跌幅(%)", ascending=False)`
guarantees about its result under the documented semantics of the
default `kind="quicksort"` (numpy introsort, documented as not stable):
the result is a permutation of the input, ordered non-increasingly on
`changePercent` — and nothing about the order of ties. -/
def isDescendingSortOf (valid_etfs out : List Row) : Prop :=
  List.Perm out valid_etfs ∧
  out.Pairwise (fun a b => b.changePercent ≤ a.changePercent)

/-- The line `exchange = "sh" if symbol.startswith("5") else "sz"`. -/
def exchangeOf (symbol : String) : String :=
  if symbol.startsWith "5" then "sh" else "sz"

/-- The line `ak_symbol = f"{exchange}{symbol}"` (string concatenation). -/
def akSymbol (symbol : String) : String := exchangeOf symbol ++ symbol

/-- One iteration of the candidate loop of `fetch_etf_data`.  The field
extractions (`.strip()` on 代码 and 名称) happen before the inner
`try`, so their failures propagate (an `.error` result).  The inner
`try` covers the history fetch; a fetch failure or a history shorter
than 20 bars yields `.ok none` (candidate skipped, loop continues);
otherwise the result row carries `round(sharpe, 4)`. -/
noncomputable def processOne (histFetch : String → Except String (List PriceBar))
    (row : Row) : Except String (Option RiskScore) :=
  match row.code with
  | .error e => .error e
  | .ok symbol =>
    match row.rawName with
    | .error e => .error e
    | .ok nm =>
      match histFetch (akSymbol symbol) with
      | .error _ => .ok none
      | .ok history =>
        if history.length < 20 then .ok none
        else
          .ok (some ⟨symbol, nm, row.lastPrice, row.changePercent, row.turnoverAmount,
            round4 (calculate_sharpe_ratio history)⟩)

/-- The candidate loop `for _, row in candidate_etfs.iterrows(): ...`
accumulating `result_data` in order: a skipped candidate contributes
nothing, an uncaught exception aborts the whole loop. -/
noncomputable def processCandidates (histFetch : String → Except String (List PriceBar)) :
    List Row → Except String (List RiskScore)
  | [] => .ok []
  | row :: rest =>
    match processOne histFetch row with
    | .error e => .error e
    | .ok none => processCandidates histFetch rest
    | .ok (some s) =>
      match processCandidates histFetch rest with
      | .error e => .error e
      | .ok tail' => .ok (s :: tail')

/-- The body of the top-level `try` of `fetch_etf_data`, as the value it
returns or the exception it raises. -/
noncomputable def fetchBody (univFetch : Except String (List Row))
    (histFetch : String → Except String (List PriceBar)) :
    Except String (List RiskScore) :=
  match univFetch with
  | .error e => .error e
  | .ok etf_basic =>
    if etf_basic.isEmpty then .error "全市场ETF列表为空（AkShare返回空数据）"
    else
      let candidate_etfs := rankCandidates (filterUniverse etf_basic)
      if candidate_etfs.isEmpty then .error "初选后无符合条件的ETF（流动性不足）"
      else
        match processCandidates histFetch candidate_etfs with
        | .error e => .error e
        | .ok result_data =>
          if result_data.isEmpty then .error "详细数据获取失败，候选池为空"
          else .ok result_data

/-- The function `fetch_etf_data()`: the `try` body on success yields the
success dict, any exception is caught and yields the error dict.  `now`
is the `datetime.now().strftime(...)` timestamp. -/
noncomputable def fetch_etf_data (univFetch : Except String (List Row))
    (histFetch : String → Except String (List PriceBar)) (now : String) :
    ResultEnvelope :=
  match fetchBody univFetch histFetch with
  | .ok result_data => ⟨some result_data, none, now, some result_data.length⟩
  | .error e => ⟨none, some e, now, none⟩

/-- The score a row contributes to `result_data` when processing it does
not abort the loop: `none` when the candidate is skipped. -/
noncomputable def scoreOf (histFetch : String → Except String (List PriceBar))
    (row : Row) : Option RiskScore :=
  match processOne histFetch row with
  | .error _ => none
  | .ok o => o

/-- A candidate whose field extraction succeeds, whose history fetch
succeeds and returns at least 20 bars, is included in the results with
the rounded Sharpe score. -/
theorem processOne_ok (histFetch : String → Except String (List PriceBar)) (row : Row)
    (symbol nm : String) (history : List PriceBar)
    (hc : row.code = .ok symbol) (hn : row.rawName = .ok nm)
    (hf : histFetch (akSymbol symbol) = .ok history) (hlen : 20 ≤ history.length) :
    processOne histFetch row = .ok (some ⟨symbol, nm, row.lastPrice, row.changePercent,
      row.turnoverAmount, round4 (calculate_sharpe_ratio history)⟩) := by
  simp only [processOne, hc, hn, hf]
  rw [if_neg (by omega)]

/-- Concrete data for witnesses: 21 bars of constant close price. -/
def histFlat : List PriceBar := List.replicate 21 ⟨"2024-01-02", 4⟩

/-- Concrete data for witnesses: 21 closes alternating between 1 and 2,
so the 20 daily returns alternate between 1 and -1/2. -/
def altCloses : List ℚ := [1, 2, 1, 2, 1, 2, 1, 2, 1, 2, 1, 2, 1, 2, 1, 2, 1, 2, 1, 2, 1]

/-- Concrete history built from `altCloses`. -/
def histAlt : List PriceBar := altCloses.map (fun c => ⟨"2024-01-02", c⟩)

/-- Concrete universe row for witnesses. -/
def demoRow : Row := ⟨.ok "510300", .ok "沪深300ETF", 4, 2, 5000⟩

/-- Concrete history provider for witnesses: always returns `histAlt`. -/
def demoFetch : String → Except String (List PriceBar) := fun _ => .ok histAlt

/-- C1: every invocation of `fetch_etf_data` returns exactly one
`ResultEnvelope`: either the success form with `data` and `count`
populated and `error` absent, or the error form with `error` populated
and `data` and `count` absent; the function is total, so no exception
passes the top-level boundary. -/
theorem C1_envelope_exclusive (univFetch : Except String (List Row))
    (histFetch : String → Except String (List PriceBar)) (now : String) :
    ((fetch_etf_data univFetch histFetch now).data.isSome ∧
     (fetch_etf_data univFetch histFetch now).count.isSome ∧
     (fetch_etf_data univFetch histFetch now).error.isNone) ∨
    ((fetch_etf_data univFetch histFetch now).error.isSome ∧
     (fetch_etf_data univFetch histFetch now).data.isNone ∧
     (fetch_etf_data univFetch histFetch now).count.isNone) := by
  cases hb : fetchBody univFetch histFetch with
  | error e => right; simp [fetch_etf_data, hb]
  | ok d => left; simp [fetch_etf_data, hb]

/-- C2: with at least 10 daily returns and nonzero annualized volatility,
the Sharpe score is the cumulative return divided by the sample standard
deviation times the square root of 252, and the pipeline stores it
rounded to 4 fractional decimal digits. -/
theorem C2_sharpe_formula :
    (∀ history : List PriceBar,
      10 ≤ (dailyReturns (history.map PriceBar.close)).length →
      annualVol (dailyReturns (history.map PriceBar.close)) ≠ 0 →
      calculate_sharpe_ratio history =
        (cumReturn (dailyReturns (history.map PriceBar.close)) : ℝ) /
          (Real.sqrt (sampleVar (dailyReturns (history.map PriceBar.close))) *
            Real.sqrt 252)) ∧
    (∀ (histFetch : String → Except String (List PriceBar)) (row : Row)
      (symbol nm : String) (history : List PriceBar),
      row.code = .ok symbol → row.rawName = .ok nm →
      histFetch (akSymbol symbol) = .ok history → 20 ≤ history.length →
      processOne histFetch row = .ok (some ⟨symbol, nm, row.lastPrice, row.changePercent,
        row.turnoverAmount, round4 (calculate_sharpe_ratio history)⟩)) := by
  constructor
  · intro history hlen hvol
    simp only [calculate_sharpe_ratio]
    rw [if_neg (by omega), if_pos hvol]
    simp [annualVol, sampleStd]
  · intro histFetch row symbol nm history hc hn hf hl
    exact processOne_ok histFetch row symbol nm history hc hn hf hl

/-- Witness for C2 at the concrete history `histAlt` (20 returns,
nonzero volatility) and the concrete candidate `demoRow`. -/
theorem C2_sharpe_formula_witness :
    (10 ≤ (dailyReturns (histAlt.map PriceBar.close)).length ∧
     annualVol (dailyReturns (histAlt.map PriceBar.close)) ≠ 0 ∧
     calculate_sharpe_ratio histAlt =
       (cumReturn (dailyReturns (histAlt.map PriceBar.close)) : ℝ) /
         (Real.sqrt (sampleVar (dailyReturns (histAlt.map PriceBar.close))) *
           Real.sqrt 252)) ∧
    processOne demoFetch demoRow = .ok (some ⟨"510300", "沪深300ETF", 4, 2, 5000,
      round4 (calculate_sharpe_ratio histAlt)⟩) := by
  have hvar : sampleVar (dailyReturns (histAlt.map PriceBar.close)) = 45 / 76 := by
    norm_num [sampleVar, listMean, dailyReturns, histAlt, altCloses]
  have hvol : annualVol (dailyReturns (histAlt.map PriceBar.close)) ≠ 0 := by
    unfold annualVol sampleStd
    refine mul_ne_zero (Real.sqrt_ne_zero'.mpr ?_) (Real.sqrt_ne_zero'.mpr (by norm_num))
    rw [hvar]; norm_num
  refine ⟨⟨by decide, hvol, C2_sharpe_formula.1 histAlt (by decide) hvol⟩, ?_⟩
  exact C2_sharpe_formula.2 demoFetch demoRow "510300" "沪深300ETF" histAlt rfl rfl rfl
    (by decide)

/-- C3: with fewer than 10 daily returns the Sharpe score is exactly 0;
this is no error (the function is total), and any candidate whose fetch
succeeds with at least 20 bars is included in the results with the
rounded score, which for a zero score is 0. -/
theorem C3_short_sample_zero :
    (∀ history : List PriceBar,
      (dailyReturns (history.map PriceBar.close)).length < 10 →
      calculate_sharpe_ratio history = 0) ∧
    round4 0 = 0 ∧
    (∀ (histFetch : String → Except String (List PriceBar)) (row : Row)
      (symbol nm : String) (history : List PriceBar),
      row.code = .ok symbol → row.rawName = .ok nm →
      histFetch (akSymbol symbol) = .ok history → 20 ≤ history.length →
      processOne histFetch row = .ok (some ⟨symbol, nm, row.lastPrice, row.changePercent,
        row.turnoverAmount, round4 (calculate_sharpe_ratio history)⟩)) := by
  refine ⟨?_, ?_, ?_⟩
  · intro history hlen
    simp only [calculate_sharpe_ratio]
    rw [if_pos hlen]
    norm_num
  · simp [round4]
  · intro histFetch row symbol nm history hc hn hf hl
    exact processOne_ok histFetch row symbol nm history hc hn hf hl

/-- Concrete data for the C3 witness: 3 bars, hence only 2 returns. -/
def hist3 : List PriceBar := [⟨"2024-01-02", 10⟩, ⟨"2024-01-03", 11⟩, ⟨"2024-01-04", 12⟩]

/-- Witness for C3 at the concrete short history `hist3` and the
concrete candidate `demoRow`. -/
theorem C3_short_sample_zero_witness :
    ((dailyReturns (hist3.map PriceBar.close)).length < 10 ∧
     calculate_sharpe_ratio hist3 = 0) ∧
    processOne demoFetch demoRow = .ok (some ⟨"510300", "沪深300ETF", 4, 2, 5000,
      round4 (calculate_sharpe_ratio histAlt)⟩) := by
  refine ⟨⟨by decide, C3_short_sample_zero.1 hist3 (by decide)⟩, ?_⟩
  exact C3_short_sample_zero.2.2 demoFetch demoRow "510300" "沪深300ETF" histAlt rfl rfl rfl
    (by decide)

/-- C4: whenever the annualized volatility is exactly 0, the Sharpe
score is 0 regardless of the cumulative return; the division is guarded
by the volatility test and the function is total, so it never raises. -/
theorem C4_zero_volatility_sharpe_zero (history : List PriceBar)
    (hvol : annualVol (dailyReturns (history.map PriceBar.close)) = 0) :
    calculate_sharpe_ratio history = 0 := by
  simp only [calculate_sharpe_ratio]
  by_cases h : (dailyReturns (history.map PriceBar.close)).length < 10
  · rw [if_pos h]; norm_num
  · rw [if_neg h, if_neg (not_not.mpr hvol)]; norm_num

/-- Witness for C4 at the constant-price history `histFlat`. -/
theorem C4_zero_volatility_sharpe_zero_witness :
    annualVol (dailyReturns (histFlat.map PriceBar.close)) = 0 ∧
    calculate_sharpe_ratio histFlat = 0 := by
  have hv : sampleVar (dailyReturns (histFlat.map PriceBar.close)) = 0 := by
    norm_num [sampleVar, listMean, dailyReturns, histFlat, List.replicate]
  have h0 : annualVol (dailyReturns (histFlat.map PriceBar.close)) = 0 := by
    simp [annualVol, sampleStd, hv]
  exact ⟨h0, C4_zero_volatility_sharpe_zero histFlat h0⟩

/-- C5: the universe filter returns exactly the rows with
`turnoverAmount > 1000` and `lastPrice > 0`, in input order (the output
is a sublist of the input); it is a pure function. -/
theorem C5_filter_correct (l : List Row) :
    (∀ e : Row, e ∈ filterUniverse l ↔
      e ∈ l ∧ (1000 < e.turnoverAmount ∧ 0 < e.lastPrice)) ∧
    List.Sublist (filterUniverse l) l := by
  constructor
  · intro e
    simp [filterUniverse, List.mem_filter, and_assoc]
  · exact List.filter_sublist l

/-- The ranking comparison is transitive. -/
theorem rankLE_trans : ∀ a b c : Row, rankLE a b → rankLE b c → rankLE a c := by
  intro a b c hab hbc
  simp only [rankLE, decide_eq_true_eq] at *
  exact le_trans hbc hab

/-- The ranking comparison is total. -/
theorem rankLE_total : ∀ a b : Row, rankLE a b || rankLE b a := by
  intro a b
  simp only [rankLE, Bool.or_eq_true, decide_eq_true_eq]
  exact le_total b.changePercent a.changePercent

/-- Concrete rows with equal `changePercent` (a tie), both passing the
liquidity and price filter, distinguished by their other fields. -/
def tieRowA : Row := ⟨.ok "510050", .ok "上证50ETF", 3, 1, 3000⟩

/-- Second concrete tied row; see `tieRowA`. -/
def tieRowB : Row := ⟨.ok "159919", .ok "沪深300ETF", 4, 1, 4000⟩

/-- C6 counterexample: the claim's tie-preservation part does not hold
of the code.  The sort line only guarantees `isDescendingSortOf` (its
default quicksort kind is documented as unstable), and on the concrete
tied input `[tieRowA, tieRowB]` the output `[tieRowB, tieRowA]` is
admissible under that contract yet reverses the two tied rows: after
`head(50)` the rows with `changePercent = 1` are not a sublist of the
filter output's rows with `changePercent = 1`. -/
theorem C6_ranker_counterexample :
    isDescendingSortOf [tieRowA, tieRowB] [tieRowB, tieRowA] ∧
    tieRowA.changePercent = tieRowB.changePercent ∧
    tieRowA ≠ tieRowB ∧
    ¬ List.Sublist
        (([tieRowB, tieRowA].take 50).filter (fun e => decide (e.changePercent = 1)))
        ([tieRowA, tieRowB].filter (fun e => decide (e.changePercent = 1))) := by
  refine ⟨⟨List.Perm.swap tieRowA tieRowB [], ?_⟩, rfl, ?_, ?_⟩
  · simp [tieRowA, tieRowB]
  · simp [tieRowA, tieRowB]
  · have e1 : ([tieRowB, tieRowA].take 50).filter (fun e => decide (e.changePercent = 1)) =
        [tieRowB, tieRowA] := by
      rw [List.take_of_length_le (by simp)]
      norm_num [List.filter_cons, tieRowA, tieRowB]
    have e2 : [tieRowA, tieRowB].filter (fun e => decide (e.changePercent = 1)) =
        [tieRowA, tieRowB] := by
      norm_num [List.filter_cons, tieRowA, tieRowB]
    rw [e1, e2]
    intro h
    have heq := h.eq_of_length (by simp)
    have hBA : tieRowB = tieRowA := by injection heq
    simp [tieRowA, tieRowB] at hBA

/-- C6 amended: the ranker output is ordered non-increasing in
`changePercent`, truncated to the first 50 entries (its length is
exactly `min 50` the input length, so never exceeds 50), and equals the
50-prefix of a descending-sorted permutation of the filter output; the
relative order of entries with equal `changePercent` is not specified
(the code's default sort kind is documented as unstable), so the
tie-preservation guarantee is dropped. -/
theorem C6_ranker_amended (l : List Row) :
    (rankCandidates l).length = min 50 l.length ∧
    (rankCandidates l).Pairwise (fun a b => b.changePercent ≤ a.changePercent) ∧
    ∃ l', List.Perm l' l ∧
      l'.Pairwise (fun a b => b.changePercent ≤ a.changePercent) ∧
      rankCandidates l = l'.take 50 := by
  have hs : (l.mergeSort rankLE).Pairwise (fun a b => rankLE a b) :=
    List.sorted_mergeSort rankLE_trans rankLE_total l
  have hs' : (l.mergeSort rankLE).Pairwise
      (fun a b => b.changePercent ≤ a.changePercent) := by
    refine hs.imp ?_
    intro a b h
    simpa [rankLE] using h
  refine ⟨?_, hs'.sublist (List.take_sublist 50 _),
    l.mergeSort rankLE, List.mergeSort_perm l rankLE, hs', rfl⟩
  simp [rankCandidates]

/-- C7: a candidate whose history fetch fails, or returns fewer than 20
bars, is skipped (the loop iteration yields no row and no exception) and
processing continues with the remaining candidates unchanged. -/
theorem C7_per_candidate_skip (histFetch : String → Except String (List PriceBar))
    (row : Row) (rest : List Row) (symbol nm : String)
    (hc : row.code = .ok symbol) (hn : row.rawName = .ok nm)
    (hfail : (∃ e, histFetch (akSymbol symbol) = .error e) ∨
             (∃ h, histFetch (akSymbol symbol) = .ok h ∧ h.length < 20)) :
    processOne histFetch row = .ok none ∧
    processCandidates histFetch (row :: rest) = processCandidates histFetch rest := by
  have h1 : processOne histFetch row = .ok none := by
    rcases hfail with ⟨e, he⟩ | ⟨h, hh, hlen⟩
    · simp [processOne, hc, hn, he]
    · simp [processOne, hc, hn, hh, hlen]
  refine ⟨h1, ?_⟩
  simp [processCandidates, h1]

/-- Concrete always-failing history provider for witnesses. -/
def failFetch : String → Except String (List PriceBar) := fun _ => .error "网络请求失败"

/-- Witness for C7: the concrete candidate `demoRow` under the failing
provider is skipped and the loop over the singleton list continues. -/
theorem C7_per_candidate_skip_witness :
    processOne failFetch demoRow = .ok none ∧
    processCandidates failFetch [demoRow] = processCandidates failFetch [] :=
  C7_per_candidate_skip failFetch demoRow [] "510300" "沪深300ETF" rfl rfl
    (Or.inl ⟨"网络请求失败", rfl⟩)

/-- The run succeeds when the universe is nonempty, the candidate loop
returns without exception, and its result list is nonempty. -/
theorem fetch_success (univFetch : Except String (List Row))
    (histFetch : String → Except String (List PriceBar)) (now : String)
    (l : List Row) (d : List RiskScore)
    (hu : univFetch = .ok l) (hl : l ≠ [])
    (hp : processCandidates histFetch (rankCandidates (filterUniverse l)) = .ok d)
    (hd : d ≠ []) :
    fetch_etf_data univFetch histFetch now = ⟨some d, none, now, some d.length⟩ := by
  have hcne : rankCandidates (filterUniverse l) ≠ [] := by
    intro h
    rw [h] at hp
    simp only [processCandidates] at hp
    exact hd (by injection hp with h2; exact h2.symm)
  have hb : fetchBody univFetch histFetch = .ok d := by
    simp [fetchBody, hu, hl, hcne, hp, hd]
  simp [fetch_etf_data, hb]

/-- The run fails with the candidate-loop exception when one propagates
out of the loop. -/
theorem fetch_err_loop (univFetch : Except String (List Row))
    (histFetch : String → Except String (List PriceBar)) (now : String)
    (l : List Row) (s : String)
    (hu : univFetch = .ok l)
    (hcne : rankCandidates (filterUniverse l) ≠ [])
    (hp : processCandidates histFetch (rankCandidates (filterUniverse l)) = .error s) :
    fetch_etf_data univFetch histFetch now = ⟨none, some s, now, none⟩ := by
  have hl : l ≠ [] := by
    intro h
    exact hcne (by simp [h, filterUniverse, rankCandidates])
  have hb : fetchBody univFetch histFetch = .error s := by
    simp [fetchBody, hu, hl, hcne, hp]
  simp [fetch_etf_data, hb]

/-- C8: the three emptiness conditions each abort their own stage of the
run and surface as the error envelope with three pairwise distinct
messages; when none of them holds (and no exception propagates out of
the candidate loop) the run yields the success envelope. -/
theorem C8_fatal_emptiness (univFetch : Except String (List Row))
    (histFetch : String → Except String (List PriceBar)) (now : String) :
    (univFetch = .ok [] →
      fetch_etf_data univFetch histFetch now =
        ⟨none, some "全市场ETF列表为空（AkShare返回空数据）", now, none⟩) ∧
    (∀ l : List Row, univFetch = .ok l → l ≠ [] → filterUniverse l = [] →
      fetch_etf_data univFetch histFetch now =
        ⟨none, some "初选后无符合条件的ETF（流动性不足）", now, none⟩) ∧
    (∀ l : List Row, univFetch = .ok l →
      rankCandidates (filterUniverse l) ≠ [] →
      processCandidates histFetch (rankCandidates (filterUniverse l)) = .ok [] →
      fetch_etf_data univFetch histFetch now =
        ⟨none, some "详细数据获取失败，候选池为空", now, none⟩) ∧
    (∀ (l : List Row) (d : List RiskScore), univFetch = .ok l → l ≠ [] →
      processCandidates histFetch (rankCandidates (filterUniverse l)) = .ok d →
      d ≠ [] →
      fetch_etf_data univFetch histFetch now = ⟨some d, none, now, some d.length⟩) ∧
    ("全市场ETF列表为空（AkShare返回空数据）" ≠ "初选后无符合条件的ETF（流动性不足）" ∧
     "全市场ETF列表为空（AkShare返回空数据）" ≠ "详细数据获取失败，候选池为空" ∧
     "初选后无符合条件的ETF（流动性不足）" ≠ "详细数据获取失败，候选池为空") := by
  refine ⟨?_, ?_, ?_, ?_, by decide⟩
  · intro hu
    have hb : fetchBody univFetch histFetch =
        .error "全市场ETF列表为空（AkShare返回空数据）" := by
      simp [fetchBody, hu]
    simp [fetch_etf_data, hb]
  · intro l hu hl hf
    have hb : fetchBody univFetch histFetch =
        .error "初选后无符合条件的ETF（流动性不足）" := by
      simp [fetchBody, hu, hl, hf, rankCandidates]
    simp [fetch_etf_data, hb]
  · intro l hu hcne hp
    have hl : l ≠ [] := by
      intro h
      exact hcne (by simp [h, filterUniverse, rankCandidates])
    have hb : fetchBody univFetch histFetch =
        .error "详细数据获取失败，候选池为空" := by
      simp [fetchBody, hu, hl, hcne, hp]
    simp [fetch_etf_data, hb]
  · intro l d hu hl hp hd
    exact fetch_success univFetch histFetch now l d hu hl hp hd

/-- Concrete row that fails the liquidity filter (turnover 500 ≤ 1000). -/
def lowRow : Row := ⟨.ok "159915", .ok "创业板ETF", 2, 1, 500⟩

/-- Ranking a singleton filtered set yields that singleton. -/
theorem rank_singleton (r : Row) : rankCandidates [r] = [r] := by
  simp [rankCandidates]

/-- Witness for C8: the three error envelopes and the success envelope
each reached at a concrete input. -/
theorem C8_fatal_emptiness_witness :
    fetch_etf_data (.ok []) demoFetch "2025-01-01 00:00:00" =
      ⟨none, some "全市场ETF列表为空（AkShare返回空数据）", "2025-01-01 00:00:00", none⟩ ∧
    fetch_etf_data (.ok [lowRow]) demoFetch "2025-01-01 00:00:00" =
      ⟨none, some "初选后无符合条件的ETF（流动性不足）", "2025-01-01 00:00:00", none⟩ ∧
    fetch_etf_data (.ok [demoRow]) failFetch "2025-01-01 00:00:00" =
      ⟨none, some "详细数据获取失败，候选池为空", "2025-01-01 00:00:00", none⟩ ∧
    fetch_etf_data (.ok [demoRow]) demoFetch "2025-01-01 00:00:00" =
      ⟨some [⟨"510300", "沪深300ETF", 4, 2, 5000, round4 (calculate_sharpe_ratio histAlt)⟩],
       none, "2025-01-01 00:00:00", some 1⟩ := by
  have hfu : filterUniverse [demoRow] = [demoRow] := by norm_num [filterUniverse, demoRow]
  have hfl : filterUniverse [lowRow] = [] := by norm_num [filterUniverse, lowRow]
  have hone := processOne_ok demoFetch demoRow "510300" "沪深300ETF" histAlt rfl rfl rfl
    (by decide)
  have hskip : processOne failFetch demoRow = .ok none := by
    simp [processOne, demoRow, failFetch]
  refine ⟨(C8_fatal_emptiness (.ok []) demoFetch _).1 rfl,
    (C8_fatal_emptiness (.ok [lowRow]) demoFetch _).2.1 [lowRow] rfl (by simp) hfl,
    (C8_fatal_emptiness (.ok [demoRow]) failFetch _).2.2.1 [demoRow] rfl
      (by rw [hfu, rank_singleton]; simp)
      (by rw [hfu, rank_singleton]; simp [processCandidates, hskip]), ?_⟩
  have hp : processCandidates demoFetch (rankCandidates (filterUniverse [demoRow])) =
      .ok [⟨"510300", "沪深300ETF", 4, 2, 5000, round4 (calculate_sharpe_ratio histAlt)⟩] := by
    rw [hfu, rank_singleton]
    simp only [processCandidates]
    rw [hone]
    simp [demoRow]
  exact (C8_fatal_emptiness (.ok [demoRow]) demoFetch _).2.2.2.1 [demoRow]
    [⟨"510300", "沪深300ETF", 4, 2, 5000, round4 (calculate_sharpe_ratio histAlt)⟩]
    rfl (by simp) hp (by simp)

/-- The list a successful candidate loop returns maps each candidate, in
order, to its optional score, dropping the skipped ones. -/
theorem processCandidates_filterMap (histFetch : String → Except String (List PriceBar))
    (rows : List Row) (d : List RiskScore)
    (h : processCandidates histFetch rows = .ok d) :
    d = rows.filterMap (scoreOf histFetch) := by
  induction rows generalizing d with
  | nil =>
    simp only [processCandidates] at h
    injection h with h
    simp [h.symm]
  | cons r rs ih =>
    simp only [processCandidates] at h
    cases hp : processOne histFetch r with
    | error e =>
      rw [hp] at h
      exact absurd h (by simp)
    | ok o =>
      rw [hp] at h
      cases o with
      | none =>
        simp only [] at h
        have hd := ih d h
        simp [List.filterMap_cons, scoreOf, hp, hd]
      | some s =>
        cases hrec : processCandidates histFetch rs with
        | error e =>
          rw [hrec] at h
          exact absurd h (by simp)
        | ok tl =>
          rw [hrec] at h
          simp only [] at h
          injection h with h
          have hd := ih tl hrec
          simp [List.filterMap_cons, scoreOf, hp, ← h, hd]

/-- C9: every success envelope carries the scores of the non-skipped
candidates in the ranker's order, and `count` equals the length of
`data`. -/
theorem C9_success_contents (univFetch : Except String (List Row))
    (histFetch : String → Except String (List PriceBar)) (now : String)
    (l : List Row) (d : List RiskScore)
    (hu : univFetch = .ok l) (hl : l ≠ [])
    (hp : processCandidates histFetch (rankCandidates (filterUniverse l)) = .ok d)
    (hd : d ≠ []) :
    fetch_etf_data univFetch histFetch now = ⟨some d, none, now, some d.length⟩ ∧
    d = (rankCandidates (filterUniverse l)).filterMap (scoreOf histFetch) :=
  ⟨fetch_success univFetch histFetch now l d hu hl hp hd,
   processCandidates_filterMap histFetch _ d hp⟩

/-- Witness for C9: a concrete single-candidate run that succeeds. -/
theorem C9_success_contents_witness :
    fetch_etf_data (.ok [demoRow]) demoFetch "2025-01-01 00:00:00" =
      ⟨some [⟨"510300", "沪深300ETF", 4, 2, 5000, round4 (calculate_sharpe_ratio histAlt)⟩],
       none, "2025-01-01 00:00:00", some 1⟩ ∧
    [(⟨"510300", "沪深300ETF", 4, 2, 5000,
        round4 (calculate_sharpe_ratio histAlt)⟩ : RiskScore)] =
      (rankCandidates (filterUniverse [demoRow])).filterMap (scoreOf demoFetch) := by
  have hfu : filterUniverse [demoRow] = [demoRow] := by norm_num [filterUniverse, demoRow]
  have hone := processOne_ok demoFetch demoRow "510300" "沪深300ETF" histAlt rfl rfl rfl
    (by decide)
  have hp : processCandidates demoFetch (rankCandidates (filterUniverse [demoRow])) =
      .ok [⟨"510300", "沪深300ETF", 4, 2, 5000, round4 (calculate_sharpe_ratio histAlt)⟩] := by
    rw [hfu, rank_singleton]
    simp only [processCandidates]
    rw [hone]
    simp [demoRow]
  exact C9_success_contents (.ok [demoRow]) demoFetch "2025-01-01 00:00:00" [demoRow]
    [⟨"510300", "沪深300ETF", 4, 2, 5000, round4 (calculate_sharpe_ratio histAlt)⟩]
    rfl (by simp) hp (by simp)

/-- A row whose symbol or name extraction raises aborts its loop
iteration with that exception (it is not caught by the inner handler). -/
theorem processOne_err (histFetch : String → Except String (List PriceBar))
    (row : Row) (s : String)
    (hbad : row.code = .error s ∨ ∃ sym, row.code = .ok sym ∧ row.rawName = .error s) :
    processOne histFetch row = .error s := by
  rcases hbad with h | ⟨sym, hc, hn⟩
  · simp [processOne, h]
  · simp [processOne, hc, hn]

/-- An uncaught exception at one candidate aborts the whole loop: the
candidates after it are not processed and the exception propagates. -/
theorem processCandidates_err (histFetch : String → Except String (List PriceBar))
    (pre : List Row) (row : Row) (post : List Row) (s : String)
    (hpre : ∀ r ∈ pre, ∃ o, processOne histFetch r = .ok o)
    (hrow : processOne histFetch row = .error s) :
    processCandidates histFetch (pre ++ row :: post) = .error s := by
  induction pre with
  | nil => simp [processCandidates, hrow]
  | cons r rs ih =>
    obtain ⟨o, ho⟩ := hpre r (by simp)
    have ih' := ih (fun r' hr' => hpre r' (by simp [hr']))
    cases o with
    | none => simp [processCandidates, ho, ih']
    | some sc => simp [processCandidates, ho, ih']

/-- C10: the per-candidate absorption boundary does not cover field
extraction: if a ranked candidate's symbol or name extraction raises
(after any earlier candidates processed without an uncaught exception),
the loop aborts — regardless of the candidates after it — and the whole
run yields the error envelope instead of skipping that candidate. -/
theorem C10_extraction_outside_boundary (univFetch : Except String (List Row))
    (histFetch : String → Except String (List PriceBar)) (now : String)
    (l pre post : List Row) (row : Row) (s : String)
    (hu : univFetch = .ok l)
    (hrank : rankCandidates (filterUniverse l) = pre ++ row :: post)
    (hpre : ∀ r ∈ pre, ∃ o, processOne histFetch r = .ok o)
    (hbad : row.code = .error s ∨ ∃ sym, row.code = .ok sym ∧ row.rawName = .error s) :
    processCandidates histFetch (rankCandidates (filterUniverse l)) = .error s ∧
    fetch_etf_data univFetch histFetch now = ⟨none, some s, now, none⟩ := by
  have hrow := processOne_err histFetch row s hbad
  have hp : processCandidates histFetch (rankCandidates (filterUniverse l)) = .error s := by
    rw [hrank]
    exact processCandidates_err histFetch pre row post s hpre hrow
  refine ⟨hp, fetch_err_loop univFetch histFetch now l s hu ?_ hp⟩
  rw [hrank]
  simp

/-- Concrete row whose 代码 cell is not a string, so `.strip()` raises. -/
def badRow : Row := ⟨.error "代码字段非字符串", .ok "异常行", 5, 1, 2000⟩

/-- Witness for C10: the concrete bad row passes the filter, its
extraction failure aborts the loop and the run errors. -/
theorem C10_extraction_outside_boundary_witness :
    processCandidates demoFetch (rankCandidates (filterUniverse [badRow])) =
      .error "代码字段非字符串" ∧
    fetch_etf_data (.ok [badRow]) demoFetch "2025-01-01 00:00:00" =
      ⟨none, some "代码字段非字符串", "2025-01-01 00:00:00", none⟩ := by
  have hfb : filterUniverse [badRow] = [badRow] := by norm_num [filterUniverse, badRow]
  have hrank : rankCandidates (filterUniverse [badRow]) = [] ++ badRow :: [] := by
    rw [hfb, rank_singleton]
    simp
  exact C10_extraction_outside_boundary (.ok [badRow]) demoFetch "2025-01-01 00:00:00"
    [badRow] [] [] badRow "代码字段非字符串" rfl hrank (by simp) (Or.inl rfl)

end EtfFetcher
